import Mathlib

/-!
# Trueprice valuation/caching core: a shallow embedding

This file embeds the data model and operations of `src/App.jsx`
(the valuation + caching pipeline of the Trueprice client) in Lean 4
and proves the specified properties about them.

Modelling conventions:
* JavaScript numbers are modelled as `Rat` (exact rationals; the code never
  exercises overflow, and NaN/Infinity only arise from parse failures, which
  are modelled with `Option`).
* JSON values (API payloads and parsed model responses) are the inductive
  `JSValue`; `undefined` and `null` are separate constructors because
  `Number(null) = 0` while `Number(undefined)` is NaN.
* JavaScript objects are association lists in insertion order; keyed
  assignment `o[k] = v` is `objSet` (replace in place, else append), and
  property access is `objGet` / `jget`.
* Timestamps (`Date.now()`) are `Int` milliseconds passed explicitly.
* Network effects are made explicit: fetch results arrive as parameters
  (an oracle of responses), and each operation reports how many requests
  it issued.
-/

set_option maxHeartbeats 1000000

/-- JavaScript/JSON values, as far as the valuation pipeline inspects them. -/
inductive JSValue where
  | null
  | undefined
  | num (q : Rat)
  | str (s : String)
  | bool (b : Bool)
  | arr (items : List JSValue)
  | obj (fields : List (String × JSValue))
deriving Repr

/-- First-match lookup in an association list (JS object property read). -/
def objGet {α : Type} : List (String × α) → String → Option α
  | [], _ => none
  | (k, v) :: rest, key => if k = key then some v else objGet rest key

/-- Replace the value at every entry carrying `key`, keeping positions. -/
def objReplace {α : Type} : List (String × α) → String → α → List (String × α)
  | [], _, _ => []
  | (k, w) :: rest, key, v =>
    if k = key then (key, v) :: objReplace rest key v
    else (k, w) :: objReplace rest key v

/-- Does the object have an entry with this key? -/
def objHas {α : Type} (fields : List (String × α)) (key : String) : Bool :=
  fields.any (fun p => p.1 = key)

/-- Keyed assignment `o[k] = v` on a JS object: replace the entry in place
when the key exists, otherwise append a new entry at the end. -/
def objSet {α : Type} (fields : List (String × α)) (key : String) (v : α) :
    List (String × α) :=
  if objHas fields key then objReplace fields key v
  else fields ++ [(key, v)]

/-- Optional-chained property access `x?.k`: `undefined` on anything that is
not an object with that key. -/
def jget (v : JSValue) (key : String) : JSValue :=
  match v with
  | .obj fields =>
    match objGet fields key with
    | some w => w
    | none => .undefined
  | _ => .undefined

/-- JavaScript truthiness of the values representable here. -/
def jsTruthy : JSValue → Bool
  | .null => false
  | .undefined => false
  | .num q => q != 0
  | .str s => s ≠ ""
  | .bool b => b
  | .arr _ => true
  | .obj _ => true

/-- Disjunction `a || b` on JS values. -/
def jsOr (a b : JSValue) : JSValue := if jsTruthy a then a else b

/-! ## Numeric text: `parseFloat`, `Number`, JSON numbers -/

def digitVal (c : Char) : Nat := c.toNat - '0'.toNat

def takeDigits (cs : List Char) : List Char × List Char :=
  (cs.takeWhile Char.isDigit, cs.dropWhile Char.isDigit)

def digitsToNat (ds : List Char) : Nat :=
  ds.foldl (fun a c => a * 10 + digitVal c) 0

/-- Split an optional leading sign; returns (negative?, rest). -/
def splitSign (cs : List Char) : Bool × List Char :=
  match cs with
  | c :: t => if c = '-' then (true, t) else if c = '+' then (false, t) else (false, cs)
  | [] => (false, cs)

/-- Decimal-literal body shared by `parseFloat` and `Number("...")`:
digits, optional fraction, optional exponent, longest valid prefix.
Returns `none` when there is not at least one digit before the exponent. -/
def parseDecimalBody (cs : List Char) : Option (Rat × List Char) :=
  let (ip, cs1) := takeDigits cs
  let (fd, cs2) : List Char × List Char :=
    match cs1 with
    | c :: t => if c = '.' then takeDigits t else ([], cs1)
    | [] => ([], cs1)
  if ip = [] ∧ fd = [] then none
  else
    let mant : Rat := (digitsToNat ip : Rat) + (digitsToNat fd : Rat) / (10 : Rat) ^ fd.length
    match cs2 with
    | e :: t =>
      if e = 'e' ∨ e = 'E' then
        let (eneg, t2) := splitSign t
        let (ed, rest) := takeDigits t2
        if ed = [] then some (mant, cs2)
        else
          let ex : Int := if eneg then -(digitsToNat ed : Int) else (digitsToNat ed : Int)
          some (mant * (10 : Rat) ^ ex, rest)
      else some (mant, cs2)
    | [] => some (mant, cs2)

/-- Models `parseFloat`: skip leading whitespace, optional sign, then the longest
valid decimal-literal prefix; `none` models NaN or an infinite result. -/
def jsParseFloat (s : String) : Option Rat :=
  let cs := s.toList.dropWhile Char.isWhitespace
  let (neg, cs1) := splitSign cs
  if cs1.take 8 = "Infinity".toList then none
  else
    match parseDecimalBody cs1 with
    | some (q, _) => some (if neg then -q else q)
    | none => none

/-- Models `Number("...")`: trimmed empty string is 0; otherwise the whole trimmed
string must be a decimal literal (`none` models NaN). Hex/octal/binary
literal forms are not needed by any payload considered here. -/
def jsStringToNumber (s : String) : Option Rat :=
  let cs := (s.toList.dropWhile Char.isWhitespace).reverse.dropWhile Char.isWhitespace |>.reverse
  if cs = [] then some 0
  else
    let (neg, cs1) := splitSign cs
    match parseDecimalBody cs1 with
    | some (q, rest) => if rest = [] then some (if neg then -q else q) else none
    | none => none

/-- Models `Number(x)` restricted to finite results (`none` models NaN). -/
def jsNumberFinite : JSValue → Option Rat
  | .null => some 0
  | .undefined => none
  | .num q => some q
  | .bool b => some (if b then 1 else 0)
  | .str s => jsStringToNumber s
  | .arr [] => some 0
  | .arr [x] => jsNumberFinite x
  | .arr (_ :: _ :: _) => none
  | .obj _ => none

/-- Strip thousands-separator commas: `x.replace(/,/g, '')`. -/
def stripCommas (s : String) : String := ⟨s.toList.filter (fun c => c ≠ ',')⟩

/-- The numeric coercion `asNum` of `fetchValuationMetrics` (App.jsx line 165):
`null`/`undefined` → 0; number → itself; string → `parseFloat` after comma
stripping, 0 unless finite; anything else → 0. -/
def asNum : JSValue → Rat
  | .null => 0
  | .undefined => 0
  | .num q => q
  | .str s => (jsParseFloat (stripCommas s)).getD 0
  | _ => 0

/-! ## `JSON.parse`

A strict JSON parser over `List Char`, modelling the platform `JSON.parse`
used by `extractJSON`: strict number grammar (no leading zeros, digits
required after `.` and after an exponent marker, no leading `+`), strict
strings (standard escapes only, no raw control characters), and no trailing
input other than whitespace. Duplicate object keys keep the last value, as
in JavaScript (`objSet`). Recursion is fuelled; `jsonParse` supplies fuel
`length + 1`, which suffices because every recursive call follows the
consumption of at least one character. -/

def jsonWsChar (c : Char) : Bool := c = ' ' ∨ c = '\t' ∨ c = '\n' ∨ c = '\r'

def skipJsonWs (cs : List Char) : List Char := cs.dropWhile jsonWsChar

/-- The characters `{` and `}` (by code point). -/
def lbrace : Char := Char.ofNat 123

def rbrace : Char := Char.ofNat 125

def hexVal (c : Char) : Option Nat :=
  if c.isDigit then some (digitVal c)
  else if 'a' ≤ c ∧ c ≤ 'f' then some (c.toNat - 'a'.toNat + 10)
  else if 'A' ≤ c ∧ c ≤ 'F' then some (c.toNat - 'A'.toNat + 10)
  else none

/-- JSON string body after the opening quote; returns the decoded characters
and the input remaining after the closing quote. -/
def parseJStringBody (fuel : Nat) (cs : List Char) : Option (List Char × List Char) :=
  match fuel with
  | 0 => none
  | fuel + 1 =>
    match cs with
    | [] => none
    | c :: t =>
      if c = '"' then some ([], t)
      else if c = '\\' then
        match t with
        | [] => none
        | e :: t2 =>
          let esc : Option (Char × List Char) :=
            if e = '"' ∨ e = '\\' ∨ e = '/' then some (e, t2)
            else if e = 'n' then some ('\n', t2)
            else if e = 't' then some ('\t', t2)
            else if e = 'r' then some ('\r', t2)
            else if e = 'b' then some (Char.ofNat 8, t2)
            else if e = 'f' then some (Char.ofNat 12, t2)
            else if e = 'u' then
              match t2 with
              | h1 :: h2 :: h3 :: h4 :: t3 =>
                match hexVal h1, hexVal h2, hexVal h3, hexVal h4 with
                | some a, some b, some c2, some d =>
                  some (Char.ofNat (((a * 16 + b) * 16 + c2) * 16 + d), t3)
                | _, _, _, _ => none
              | _ => none
            else none
          match esc with
          | some (ch, rest) => (parseJStringBody fuel rest).map (fun p => (ch :: p.1, p.2))
          | none => none
      else if c.toNat < 32 then none
      else (parseJStringBody fuel t).map (fun p => (c :: p.1, p.2))

/-- Strict JSON number: `-? (0 | [1-9][0-9]*) (. [0-9]+)? ([eE][+-]?[0-9]+)?`. -/
def parseJNumber (cs : List Char) : Option (Rat × List Char) :=
  let (neg, cs1) : Bool × List Char :=
    match cs with
    | c :: t => if c = '-' then (true, t) else (false, cs)
    | [] => (false, cs)
  let intPart : Option (Nat × List Char) :=
    match cs1 with
    | c :: t =>
      if c = '0' then some (0, t)
      else if c.isDigit then
        let (ds, rest) := takeDigits cs1
        some (digitsToNat ds, rest)
      else none
    | [] => none
  match intPart with
  | none => none
  | some (ip, cs2) =>
    let fracStep : Option (Rat × List Char) :=
      match cs2 with
      | c :: t =>
        if c = '.' then
          let (ds, rest) := takeDigits t
          if ds = [] then none
          else some ((digitsToNat ds : Rat) / (10 : Rat) ^ ds.length, rest)
        else some (0, cs2)
      | [] => some (0, cs2)
    match fracStep with
    | none => none
    | some (fr, cs3) =>
      let expStep : Option (Int × List Char) :=
        match cs3 with
        | c :: t =>
          if c = 'e' ∨ c = 'E' then
            let (eneg, t2) := splitSign t
            let (ds, rest) := takeDigits t2
            if ds = [] then none
            else some ((if eneg then -(digitsToNat ds : Int) else (digitsToNat ds : Int)), rest)
          else some (0, cs3)
        | [] => some (0, cs3)
      match expStep with
      | none => none
      | some (ex, cs4) =>
        let mag : Rat := ((ip : Rat) + fr) * (10 : Rat) ^ ex
        some ((if neg then -mag else mag), cs4)

mutual

def parseJValue : Nat → List Char → Option (JSValue × List Char)
  | 0, _ => none
  | fuel + 1, input =>
    let cs := skipJsonWs input
    match cs with
    | [] => none
    | c :: t =>
      if c = lbrace then
        let t1 := skipJsonWs t
        match t1 with
        | d :: t2 => if d = rbrace then some (.obj [], t2) else parseJMembers fuel [] t1
        | [] => none
      else if c = '[' then
        let t1 := skipJsonWs t
        match t1 with
        | d :: t2 => if d = ']' then some (.arr [], t2) else parseJElements fuel [] t1
        | [] => none
      else if c = '"' then
        (parseJStringBody (t.length + 1) t).map (fun p => (.str ⟨p.1⟩, p.2))
      else if c = 't' then
        match cs with
        | _ :: 'r' :: 'u' :: 'e' :: r => some (.bool true, r)
        | _ => none
      else if c = 'f' then
        match cs with
        | _ :: 'a' :: 'l' :: 's' :: 'e' :: r => some (.bool false, r)
        | _ => none
      else if c = 'n' then
        match cs with
        | _ :: 'u' :: 'l' :: 'l' :: r => some (.null, r)
        | _ => none
      else
        (parseJNumber cs).map (fun p => (.num p.1, p.2))

def parseJMembers : Nat → List (String × JSValue) → List Char → Option (JSValue × List Char)
  | 0, _, _ => none
  | fuel + 1, acc, cs =>
    match skipJsonWs cs with
    | [] => none
    | c :: t =>
      if c = '"' then
        match parseJStringBody (t.length + 1) t with
        | none => none
        | some (k, r1) =>
          match skipJsonWs r1 with
          | [] => none
          | d :: r2 =>
            if d = ':' then
              match parseJValue fuel r2 with
              | none => none
              | some (v, r3) =>
                let acc2 := objSet acc ⟨k⟩ v
                match skipJsonWs r3 with
                | [] => none
                | e :: r4 =>
                  if e = ',' then parseJMembers fuel acc2 r4
                  else if e = rbrace then some (.obj acc2, r4)
                  else none
            else none
      else none

def parseJElements : Nat → List JSValue → List Char → Option (JSValue × List Char)
  | 0, _, _ => none
  | fuel + 1, acc, cs =>
    match parseJValue fuel cs with
    | none => none
    | some (v, r1) =>
      match skipJsonWs r1 with
      | [] => none
      | e :: r2 =>
        if e = ',' then parseJElements fuel (acc ++ [v]) r2
        else if e = ']' then some (.arr (acc ++ [v]), r2)
        else none

end

/-- Models `JSON.parse`: one value, then nothing but whitespace. -/
def jsonParse (s : String) : Option JSValue :=
  match parseJValue (s.length + 1) s.toList with
  | some (v, rest) => if skipJsonWs rest = [] then some v else none
  | none => none

/-! ## `extractJSON` (App.jsx lines 214-220)

The AI response parser. The source first runs the regex
`/` + "```" + `(?:json)?\n([\s\S]*?)` + "```" + `/i` over the text: at the
first position where three backticks, an optional case-insensitive `json`,
and a newline are followed (anywhere later) by three closing backticks, it
captures the shortest such contents. The working text `raw` is the capture
when the regex matches, otherwise the whole text. It then tries
`JSON.parse(raw)`, and on failure parses `raw.slice(i, j+1)` where `i` is
the index of the **last** `{` and `j` the index of the last `}` in `raw`,
provided `i >= 0 && j > i`. -/

/-- The backtick character. -/
def btick : Char := Char.ofNat 96

/-- Does the fence-opener pattern (three backticks, optional
case-insensitive `json`, then a newline) match at the head? Returns the
number of characters it consumes. Mirrors the regex with backtracking:
`json` is only consumed when a newline follows it. -/
def fenceOpenLen (cs : List Char) : Option Nat :=
  match cs with
  | c1 :: c2 :: c3 :: rest =>
    if c1 = btick ∧ c2 = btick ∧ c3 = btick then
      match rest with
      | j :: s :: o :: n :: nl :: _ =>
        if j.toLower = 'j' ∧ s.toLower = 's' ∧ o.toLower = 'o' ∧ n.toLower = 'n' ∧ nl = '\n'
        then some 8
        else if j = '\n' then some 4 else none
      | j :: _ => if j = '\n' then some 4 else none
      | [] => none
    else none
  | _ => none

/-- Does the input start with three backticks? -/
def startsWithTicks (cs : List Char) : Bool :=
  match cs with
  | a :: b :: c :: _ => a = btick ∧ b = btick ∧ c = btick
  | _ => false

/-- Index of the first occurrence of three consecutive backticks. -/
def findTicks : List Char → Option Nat
  | [] => none
  | c :: cs =>
    if startsWithTicks (c :: cs) then some 0
    else (findTicks cs).map (fun k => k + 1)

/-- Scan for the first position where the full fence regex matches (an
opener with a closing triple backtick somewhere after it) and return the
shortest capture at that position. -/
def findFenceAux : List Char → Option (List Char)
  | [] => none
  | c :: cs =>
    match fenceOpenLen (c :: cs) with
    | some len =>
      let after := (c :: cs).drop len
      match findTicks after with
      | some k => some (after.take k)
      | none => findFenceAux cs
    | none => findFenceAux cs

/-- The regex capture of App.jsx line 215, as a string. -/
def findFence (text : String) : Option String :=
  (findFenceAux text.toList).map (fun cs => ⟨cs⟩)

/-- Index of the last occurrence of a character (`String.lastIndexOf`). -/
def lastIdxOf : List Char → Char → Option Nat
  | [], _ => none
  | x :: xs, c =>
    match lastIdxOf xs c with
    | some k => some (k + 1)
    | none => if x = c then some 0 else none

/-- Source `extractJSON` (App.jsx lines 214-220). `none` models the `null` result
(covering both parse failure and a parsed JSON `null`, which the caller
treats identically). -/
def extractJSON (text : String) : Option JSValue :=
  if text = "" then none
  else
    let raw := (findFence text).getD text
    match jsonParse raw with
    | some v => some v
    | none =>
      let cs := raw.toList
      match lastIdxOf cs lbrace, lastIdxOf cs rbrace with
      | some i, some j =>
        if i < j then jsonParse ⟨(cs.drop i).take (j + 1 - i)⟩ else none
      | _, _ => none

/-- Index of the first occurrence of a character. -/
def firstIdxOf : List Char → Char → Option Nat
  | [], _ => none
  | x :: xs, c => if x = c then some 0 else (firstIdxOf xs c).map (fun k => k + 1)

/-- The response parser as the specification words it, for comparison with
`extractJSON`: attempt direct structured parsing of the whole response;
if that fails, locate the fenced code block and parse its contents; if
that fails, parse the substring between the first `\x7b` and the last
`\x7d` of the raw text. -/
def extractJSONClaimed (text : String) : Option JSValue :=
  match jsonParse text with
  | some v => some v
  | none =>
    match (findFence text).bind jsonParse with
    | some v => some v
    | none =>
      let cs := text.toList
      match firstIdxOf cs lbrace, lastIdxOf cs rbrace with
      | some i, some j =>
        if i < j then jsonParse ⟨(cs.drop i).take (j + 1 - i)⟩ else none
      | _, _ => none

/-! ## Valuation metrics (App.jsx lines 153-196) -/

/-- The record returned by `fetchValuationMetrics`. -/
structure ValuationMetrics where
  price : Rat
  fairEV : Rat
  fairPE : Rat
  fairPS : Rat
  weighted : Rat
  bookValue : Rat
  grossMargin : Rat
  netMargin : Rat
  opMargin : Rat
  currency : String
deriving DecidableEq, Repr

/-- Source `statsJson?.statistics || {}` (line 167). -/
def statsOf (statsJson : JSValue) : JSValue := jsOr (jget statsJson "statistics") (.obj [])

/-- Source `stats?.valuations_metrics`. -/
def valuationsOf (statsJson : JSValue) : JSValue := jget (statsOf statsJson) "valuations_metrics"

/-- Source `stats?.financials`. -/
def financialsOf (statsJson : JSValue) : JSValue := jget (statsOf statsJson) "financials"

/-- Source `Array.isArray(bsJson?.balance_sheet) ? bsJson.balance_sheet[0] : {}` (line 168). -/
def bs0Of (bsJson : JSValue) : JSValue :=
  match jget bsJson "balance_sheet" with
  | .arr xs => xs.headD .undefined
  | _ => .obj []

/-- Source `Array.isArray(isJson?.income_statement) ? isJson.income_statement[0] : {}` (line 169). -/
def is0Of (isJson : JSValue) : JSValue :=
  match jget isJson "income_statement" with
  | .arr xs => xs.headD .undefined
  | _ => .obj []

/-- Source `asNum(stats?.stock_statistics?.shares_outstanding)` (line 171). -/
def sharesOutstandingOf (statsJson : JSValue) : Rat :=
  asNum (jget (jget (statsOf statsJson) "stock_statistics") "shares_outstanding")

/-- Source `fairEV = (enterpriseValue - longTermDebt + cash) / sharesOutstanding`
under the `sharesOutstanding > 0` guard, else 0 (lines 178-180). -/
def fairEVOf (statsJson bsJson : JSValue) : Rat :=
  let sh := sharesOutstandingOf statsJson
  if 0 < sh then
    (asNum (jget (valuationsOf statsJson) "enterprise_value")
      - asNum (jget (jget (jget (bs0Of bsJson) "liabilities") "non_current_liabilities") "long_term_debt")
      + asNum (jget (jget (jget (bs0Of bsJson) "assets") "current_assets") "cash")) / sh
  else 0

/-- Source `fairPE = (forwardPE * netIncome) / sharesOutstanding` under the guard (line 181). -/
def fairPEOf (statsJson isJson : JSValue) : Rat :=
  let sh := sharesOutstandingOf statsJson
  if 0 < sh then
    asNum (jget (valuationsOf statsJson) "forward_pe") * asNum (jget (is0Of isJson) "net_income") / sh
  else 0

/-- Source `fairPS = (priceToSales * sales) / sharesOutstanding` under the guard (line 182). -/
def fairPSOf (statsJson isJson : JSValue) : Rat :=
  let sh := sharesOutstandingOf statsJson
  if 0 < sh then
    asNum (jget (valuationsOf statsJson) "price_to_sales_ttm") * asNum (jget (is0Of isJson) "sales") / sh
  else 0

/-- The derivation step of `fetchValuationMetrics` (lines 164-189), given the
four decoded JSON responses. -/
def deriveMetrics (priceJson statsJson bsJson isJson : JSValue) (currency : String) :
    ValuationMetrics where
  price := asNum (jget priceJson "price")
  fairEV := fairEVOf statsJson bsJson
  fairPE := fairPEOf statsJson isJson
  fairPS := fairPSOf statsJson isJson
  weighted := fairEVOf statsJson bsJson * 0.5 + fairPEOf statsJson isJson * 0.25
    + fairPSOf statsJson isJson * 0.25
  bookValue := asNum (jget (jget (financialsOf statsJson) "balance_sheet") "book_value_per_share_mrq")
  grossMargin := asNum (jget (financialsOf statsJson) "gross_margin") * 100
  netMargin := asNum (jget (financialsOf statsJson) "profit_margin") * 100
  opMargin := asNum (jget (financialsOf statsJson) "operating_margin") * 100
  currency := currency

/-- Source `fetchValuationMetrics` (lines 153-190). Without a credential it returns
the all-zero record with only the currency populated, before any request is
made (so the result cannot depend on the response arguments). With a
credential, the four responses are awaited together and any failed or
malformed one (`none`) fails the whole operation. -/
def fetchValuationMetrics (hasApiKey : Bool)
    (priceJson statsJson bsJson isJson : Option JSValue) (currency : String) :
    Option ValuationMetrics :=
  if !hasApiKey then
    some ⟨0, 0, 0, 0, 0, 0, 0, 0, 0, currency⟩
  else
    match priceJson, statsJson, bsJson, isJson with
    | some p, some s, some b, some i => some (deriveMetrics p s b i currency)
    | _, _, _, _ => none

/-- Number of market-data requests `fetchValuationMetrics` issues: four
(price, statistics, balance sheet, income statement, lines 158-163) with a
credential, none without (the line 154 guard returns first). -/
def fetchValuationMetricsRequests (hasApiKey : Bool) : Nat :=
  if hasApiKey then 4 else 0

/-! ## Metrics cache (App.jsx lines 191-196) -/

/-- One entry of `metrics_cache_v1`: `{ at: Date.now(), data }` (`at` is a
Lean keyword, so the field is named `capturedAt` as in the spec). -/
structure MetricsCacheEntry where
  capturedAt : Int
  data : ValuationMetrics
deriving DecidableEq, Repr

/-- The metrics cache object, keyed by qualified symbol. -/
abbrev MetricsCache := List (String × MetricsCacheEntry)

/-- Source `metricsCachePut` (line 192): `all[k] = { at: Date.now(), data }`. -/
def metricsCachePut (all : MetricsCache) (now : Int) (k : String) (data : ValuationMetrics) :
    MetricsCache :=
  objSet all k ⟨now, data⟩

/-- Result of one `getValuationMetricsCached` call: the returned metrics,
the cache contents afterwards, and whether the network fetch ran. -/
structure CachedMetricsResult where
  data : ValuationMetrics
  cache : MetricsCache
  fetched : Bool
deriving DecidableEq, Repr

/-- Source `getValuationMetricsCached` (lines 193-196): a hit younger than 30
minutes is returned as-is; otherwise the fetch result (provided here as the
`fetchResult` parameter) is stored and returned. -/
def getValuationMetricsCached (all : MetricsCache) (now : Int) (sym : String)
    (fetchResult : ValuationMetrics) : CachedMetricsResult :=
  match objGet all sym with
  | some hit =>
    if now - hit.capturedAt < 30 * 60 * 1000 then ⟨hit.data, all, false⟩
    else ⟨fetchResult, metricsCachePut all now sym fetchResult, true⟩
  | none => ⟨fetchResult, metricsCachePut all now sym fetchResult, true⟩

/-! ## Market data fetcher (App.jsx lines 92-109) -/

/-- Source `chunk` (line 92): split into slices of at most `n`. The source loops
`i += n` and is only ever called with `n = 80`; `n = 0` (which would not
terminate in the source) returns `[]` here. -/
def chunk (xs : List α) (n : Nat) : List (List α) :=
  if xs.isEmpty || n == 0 then [] else xs.take n :: chunk (xs.drop n) n
termination_by xs.length
decreasing_by
  rename_i h
  simp only [Bool.or_eq_true, List.isEmpty_iff, beq_iff_eq, not_or] at h
  have hx : 0 < xs.length := List.length_pos.mpr h.1
  have hn : 0 < n := Nat.pos_of_ne_zero h.2
  simp only [List.length_drop]
  omega

/-- Source `typeof it.price === 'string' ? parseFloat(it.price) : Number(it.price)`
(lines 102/104); `none` models a non-finite result, which is skipped. -/
def twelvePriceOf (v : JSValue) : Option Rat :=
  match v with
  | .str s => jsParseFloat s
  | _ => jsNumberFinite v

/-- Fold one (already JSON-decoded) batch response into the accumulated
price mapping. `none` is a batch-level network/parse failure, swallowed by
the `catch` (line 106). An array response takes `it.symbol`/`it.price`
pairs; any other object takes its entries as symbol → `{price}`. Only
entries with a truthy string symbol and a finite price are recorded. -/
def twelveMergeEntries (acc : List (String × Rat)) (resp : Option JSValue) :
    List (String × Rat) :=
  match resp with
  | none => acc
  | some (.arr items) =>
    items.foldl (fun r it =>
      match jget it "symbol", twelvePriceOf (jget it "price") with
      | .str sym, some p => if sym ≠ "" then objSet r sym p else r
      | _, _ => r) acc
  | some (.obj fields) =>
    fields.foldl (fun r e =>
      match twelvePriceOf (jget e.2 "price") with
      | some p => if e.1 ≠ "" then objSet r e.1 p else r
      | none => r) acc
  | some _ => acc

/-- Prices mapping plus the number of requests issued. -/
structure FetchPricesResult where
  prices : List (String × Rat)
  requests : Nat
deriving DecidableEq, Repr

/-- Source `fetchTwelvePrices` (lines 94-109): short-circuits to an empty mapping
when the symbol list is empty or no API key is configured; otherwise one
request per batch of 80, processed sequentially, with per-batch failures
contributing nothing. The network is an oracle from batch index to decoded
response (`none` = failed request or malformed JSON). -/
def fetchTwelvePrices (hasKey : Bool) (symbols : List String)
    (responses : Nat → Option JSValue) : FetchPricesResult :=
  if symbols = [] ∨ !hasKey then ⟨[], 0⟩
  else
    let batches := chunk symbols 80
    ⟨(List.range batches.length).foldl (fun acc i => twelveMergeEntries acc (responses i)) [],
      batches.length⟩

/-! ## Price cache in the catalog loader (App.jsx lines 124-130) -/

/-- Snapshot `{ at, prices }` per market (`mkt_price_cache_v1_*`). -/
structure PriceCacheRecord where
  capturedAt : Int
  prices : List (String × Rat)
deriving DecidableEq, Repr

/-- The guard of line 128: `ageMin < 10 && Object.keys(cached.prices).length`
with `ageMin = (Date.now() - cached.at) / 60000`. -/
def usesCachedPrices (cached : PriceCacheRecord) (now : Int) : Bool :=
  decide ((((now - cached.capturedAt : Int) : Rat) / 60000) < 10)
    && !(cached.prices.length == 0)

/-- Outcome of the price step of one catalog load. -/
structure PriceLoadStep where
  prices : List (String × Rat)
  cacheAfter : PriceCacheRecord
  fetcherCalled : Bool
deriving DecidableEq, Repr

/-- Lines 126-129: reuse the snapshot when the guard holds; otherwise call
the fetcher (its result mapping is the `fetchResult` parameter) and
overwrite the snapshot wholesale with a fresh timestamp. -/
def loadPricesStep (cached : PriceCacheRecord) (now : Int)
    (fetchResult : List (String × Rat)) : PriceLoadStep :=
  if usesCachedPrices cached now then ⟨cached.prices, cached, false⟩
  else ⟨fetchResult, ⟨now, fetchResult⟩, true⟩

/-! ## AI estimate cache (App.jsx lines 267-271 and 454-501) -/

/-- Source `AI_TTL_MS = 24 * 60 * 60 * 1000`. -/
def AI_TTL_MS : Int := 24 * 60 * 60 * 1000

/-- Source `MODEL_ID` (line 207). -/
def MODEL_ID : String := "Phi-3-mini-4k-instruct-q4f16_1-MLC"

/-- Source `round2` (line 269): round to 2 decimal places (`Number(n.toFixed(2))`).
All rationals are finite, so the `Number.isFinite` fallback to 0 cannot
trigger here. Exact decimal ties round half away from zero on nonnegative
input; no claim depends on the tie direction. -/
def round2 (n : Rat) : Rat := (round (n * 100) : Int) / 100

/-- Source `aiInputsSig` (line 270). The source joins the five rounded numbers with
`|` into a string; decimal renderings never contain `|`, and JavaScript
renders distinct numbers distinctly, so the 5-tuple of rounded values is
equal exactly when the source's joined string is. -/
def aiInputsSig (m : ValuationMetrics) : Rat × Rat × Rat × Rat × Rat :=
  (round2 m.fairEV, round2 m.fairPE, round2 m.fairPS, round2 m.bookValue, round2 m.price)

/-- Source `AI_CACHE_KEY` (line 271): model identity, qualified symbol and inputs
signature. The source interpolates them into one string whose components
are recoverable, so the triple is key-equality-faithful. -/
def AI_CACHE_KEY (symbolWithSuffix : String) (sig : Rat × Rat × Rat × Rat × Rat) :
    String × String × (Rat × Rat × Rat × Rat × Rat) :=
  (MODEL_ID, symbolWithSuffix, sig)

/-- One cached AI estimate: `{ at, fv, rationale }` (line 494). -/
structure AICacheEntry where
  capturedAt : Int
  fv : Rat
  rationale : String
deriving DecidableEq, Repr

/-- The AI estimate cache, keyed by the stringified cache key. -/
abbrev AICache := List (String × AICacheEntry)

/-- Outcome of handling one model response in `askAI`. -/
structure AskAIResult where
  cacheAfter : AICache
  aiFV : Option Rat
  errorShown : Bool
deriving DecidableEq, Repr

/-- The response-handling tail of `askAI` (lines 488-500): parse the
response content with `extractJSON`; when the parsed value is truthy and
its `fv` field is a number, set the fair value and write through to the
cache; otherwise show the generic error and leave the cache alone. -/
def askAIHandleResponse (cache : AICache) (key : String) (now : Int) (content : String) :
    AskAIResult :=
  match extractJSON content with
  | some j =>
    if jsTruthy j then
      match jget j "fv" with
      | .num fv =>
        let rationale := match jget j "rationale" with | .str s => s | _ => ""
        ⟨objSet cache key ⟨now, fv, rationale⟩, some fv, false⟩
      | _ => ⟨cache, none, true⟩
    else ⟨cache, none, true⟩
  | none => ⟨cache, none, true⟩

/-! ## Association-list lemmas -/

theorem objGet_objReplace_self {α : Type} (l : List (String × α)) (k : String) (v : α)
    (h : objHas l k = true) : objGet (objReplace l k v) k = some v := by
  induction l with
  | nil => simp [objHas] at h
  | cons hd tl ih =>
    obtain ⟨a, b⟩ := hd
    by_cases hk : a = k
    · subst hk
      simp [objReplace, objGet]
    · simp only [objHas, List.any_cons, Bool.or_eq_true, decide_eq_true_eq] at h
      rcases h with h | h
      · exact absurd h hk
      · simpa [objReplace, objGet, hk] using ih h

theorem objGet_append_single_self {α : Type} (l : List (String × α)) (k : String) (v : α) :
    objHas l k = false → objGet (l ++ [(k, v)]) k = some v := by
  induction l with
  | nil => intro _; simp [objGet]
  | cons hd tl ih =>
    obtain ⟨a, b⟩ := hd
    intro h
    simp only [objHas, List.any_cons, Bool.or_eq_false_iff, decide_eq_false_iff_not] at h
    have htl : objHas tl k = false := by simpa [objHas] using h.2
    simpa [objGet, h.1] using ih htl

theorem objGet_objReplace_ne {α : Type} (l : List (String × α)) (k k' : String) (v : α)
    (h : k' ≠ k) : objGet (objReplace l k v) k' = objGet l k' := by
  induction l with
  | nil => rfl
  | cons hd tl ih =>
    obtain ⟨a, b⟩ := hd
    by_cases hk : a = k
    · subst hk
      simp [objReplace, objGet, Ne.symm h, ih]
    · simp [objReplace, objGet, hk, ih]

theorem objGet_append_single_ne {α : Type} (l : List (String × α)) (k k' : String) (v : α)
    (h : k' ≠ k) : objGet (l ++ [(k, v)]) k' = objGet l k' := by
  induction l with
  | nil => simp [objGet, Ne.symm h]
  | cons hd tl ih =>
    obtain ⟨a, b⟩ := hd
    by_cases hk : a = k'
    · simp [objGet, hk]
    · simp [objGet, hk, ih]

theorem objGet_objSet_self {α : Type} (l : List (String × α)) (k : String) (v : α) :
    objGet (objSet l k v) k = some v := by
  unfold objSet
  split
  · exact objGet_objReplace_self l k v (by assumption)
  · rename_i hh
    exact objGet_append_single_self l k v (by simpa using hh)

theorem objGet_objSet_ne {α : Type} (l : List (String × α)) (k k' : String) (v : α)
    (h : k' ≠ k) : objGet (objSet l k v) k' = objGet l k' := by
  unfold objSet
  split
  · exact objGet_objReplace_ne l k k' v h
  · exact objGet_append_single_ne l k k' v h

/-- The freshness test of line 128, as an integer bound on the age. -/
theorem ageMin_lt_ten_iff (x : Int) : (((x : Int) : Rat) / 60000 < 10) ↔ x < 600000 := by
  rw [div_lt_iff₀ (by norm_num : (0 : Rat) < 60000)]
  norm_num
  exact_mod_cast Iff.rfl

/-! ## Claim theorems -/

/-- C1: every `ValuationMetrics` the system produces — on the derivation
path and on the degraded no-credential path of `fetchValuationMetrics`
alike — satisfies `weighted = 0.5*fairEV + 0.25*fairPE + 0.25*fairPS`
(exactly, since the embedding works in ℚ). -/
theorem fetchValuationMetrics_weighted_blend (hasApiKey : Bool)
    (priceJson statsJson bsJson isJson : Option JSValue) (currency : String)
    (m : ValuationMetrics)
    (h : fetchValuationMetrics hasApiKey priceJson statsJson bsJson isJson currency = some m) :
    m.weighted = 0.5 * m.fairEV + 0.25 * m.fairPE + 0.25 * m.fairPS := by
  unfold fetchValuationMetrics at h
  split at h
  · cases h
    norm_num
  · split at h
    · cases h
      simp only [deriveMetrics]
      ring
    · cases h

/-- Witness for C1: the degraded path at a concrete input. -/
theorem fetchValuationMetrics_weighted_blend_witness :
    (⟨0, 0, 0, 0, 0, 0, 0, 0, 0, "USD"⟩ : ValuationMetrics).weighted =
      0.5 * (⟨0, 0, 0, 0, 0, 0, 0, 0, 0, "USD"⟩ : ValuationMetrics).fairEV +
      0.25 * (⟨0, 0, 0, 0, 0, 0, 0, 0, 0, "USD"⟩ : ValuationMetrics).fairPE +
      0.25 * (⟨0, 0, 0, 0, 0, 0, 0, 0, 0, "USD"⟩ : ValuationMetrics).fairPS :=
  fetchValuationMetrics_weighted_blend false none none none none "USD" _ rfl

/-- C5: in the derivation step of `fetchValuationMetrics`, whenever the
coerced shares outstanding is not strictly positive, all three multiples
are 0 and therefore the weighted blend is 0 (the divisions sit under the
`sharesOutstanding > 0` guard and are never reached). -/
theorem deriveMetrics_shares_guard (p s b i : JSValue) (ccy : String)
    (h : sharesOutstandingOf s ≤ 0) :
    (deriveMetrics p s b i ccy).fairEV = 0 ∧
    (deriveMetrics p s b i ccy).fairPE = 0 ∧
    (deriveMetrics p s b i ccy).fairPS = 0 ∧
    (deriveMetrics p s b i ccy).weighted = 0 := by
  have hEV : fairEVOf s b = 0 := by
    unfold fairEVOf
    rw [if_neg (not_lt.mpr h)]
  have hPE : fairPEOf s i = 0 := by
    unfold fairPEOf
    rw [if_neg (not_lt.mpr h)]
  have hPS : fairPSOf s i = 0 := by
    unfold fairPSOf
    rw [if_neg (not_lt.mpr h)]
  refine ⟨?_, ?_, ?_, ?_⟩ <;> simp [deriveMetrics, hEV, hPE, hPS]

/-- Witness for C5: four `null` payloads coerce shares outstanding to 0. -/
theorem deriveMetrics_shares_guard_witness :
    sharesOutstandingOf JSValue.null ≤ 0 ∧
    (deriveMetrics JSValue.null JSValue.null JSValue.null JSValue.null "USD").fairEV = 0 ∧
    (deriveMetrics JSValue.null JSValue.null JSValue.null JSValue.null "USD").fairPE = 0 ∧
    (deriveMetrics JSValue.null JSValue.null JSValue.null JSValue.null "USD").fairPS = 0 ∧
    (deriveMetrics JSValue.null JSValue.null JSValue.null JSValue.null "USD").weighted = 0 :=
  ⟨le_refl 0,
   deriveMetrics_shares_guard JSValue.null JSValue.null JSValue.null JSValue.null "USD" (le_refl 0)⟩

unseal Rat.add Rat.mul Rat.inv Rat.sub Rat.ofScientific in
/-- C6: the numeric coercion `asNum` maps `null`/absent to 0, numbers to
themselves, and strings to the parse of the comma-stripped text with 0 as
the non-finite fallback; in particular `asNum(null)=0`,
`asNum("1,234.5")=1234.5`, `asNum("abc")=0`, `asNum(42)=42`. -/
theorem asNum_coercion_spec :
    asNum JSValue.null = 0 ∧
    asNum JSValue.undefined = 0 ∧
    (∀ q : Rat, asNum (JSValue.num q) = q) ∧
    (∀ s : String, asNum (JSValue.str s) = (jsParseFloat (stripCommas s)).getD 0) ∧
    asNum (JSValue.str "1,234.5") = 1234.5 ∧
    asNum (JSValue.str "abc") = 0 ∧
    asNum (JSValue.num 42) = 42 :=
  ⟨rfl, rfl, fun _ => rfl, fun _ => rfl, rfl, rfl, rfl⟩

/-- C8: with no API credential configured, `fetchTwelvePrices` returns an
empty mapping for every symbol list with zero requests issued, and
`fetchValuationMetrics` returns (it does not fail) the all-zero record
with just the currency argument populated, independent of any responses,
with zero requests issued. -/
theorem no_credential_degraded :
    (∀ (symbols : List String) (responses : Nat → Option JSValue),
        fetchTwelvePrices false symbols responses = ⟨[], 0⟩) ∧
    (∀ (pr st bs isj : Option JSValue) (ccy : String),
        fetchValuationMetrics false pr st bs isj ccy =
          some ⟨0, 0, 0, 0, 0, 0, 0, 0, 0, ccy⟩) ∧
    fetchValuationMetricsRequests false = 0 := by
  refine ⟨fun symbols responses => ?_, fun pr st bs isj ccy => rfl, rfl⟩
  unfold fetchTwelvePrices
  simp

/-- C10: `metricsCachePut` only creates or replaces the entry for the given
symbol; every other symbol keeps the same entry (same data, same
timestamp). -/
theorem metricsCachePut_frame (all : MetricsCache) (now : Int) (k k' : String)
    (data : ValuationMetrics) (h : k' ≠ k) :
    objGet (metricsCachePut all now k data) k' = objGet all k' ∧
    objGet (metricsCachePut all now k data) k = some ⟨now, data⟩ :=
  ⟨objGet_objSet_ne all k k' _ h, objGet_objSet_self all k _⟩

/-- Witness for C10 at a concrete cache. -/
theorem metricsCachePut_frame_witness :
    objGet (metricsCachePut
        [("B:TADAWUL", ⟨5, ⟨1, 2, 3, 4, 5, 6, 7, 8, 9, "SAR"⟩⟩)] 77 "A"
        ⟨0, 0, 0, 0, 0, 0, 0, 0, 0, "USD"⟩) "B:TADAWUL" =
      objGet [("B:TADAWUL", (⟨5, ⟨1, 2, 3, 4, 5, 6, 7, 8, 9, "SAR"⟩⟩ : MetricsCacheEntry))]
        "B:TADAWUL" ∧
    objGet (metricsCachePut
        [("B:TADAWUL", ⟨5, ⟨1, 2, 3, 4, 5, 6, 7, 8, 9, "SAR"⟩⟩)] 77 "A"
        ⟨0, 0, 0, 0, 0, 0, 0, 0, 0, "USD"⟩) "A" =
      some ⟨77, ⟨0, 0, 0, 0, 0, 0, 0, 0, 0, "USD"⟩⟩ :=
  metricsCachePut_frame [("B:TADAWUL", ⟨5, ⟨1, 2, 3, 4, 5, 6, 7, 8, 9, "SAR"⟩⟩)] 77 "A" "B:TADAWUL"
    ⟨0, 0, 0, 0, 0, 0, 0, 0, 0, "USD"⟩ (by decide)

/-- C7: the metrics cache is a strict read-through cache. A second call
within 30 minutes of a call that fetched and stored returns the identical
metrics with no fetch and no cache change; a call skips the fetch exactly
when a cache entry younger than 30 minutes exists; and a stale or missing
entry makes the call return the fetch result and store it under the
symbol with the current timestamp. -/
theorem getValuationMetricsCached_readthrough :
    (∀ (all : MetricsCache) (t1 t2 : Int) (sym : String) (f1 f2 : ValuationMetrics),
        (getValuationMetricsCached all t1 sym f1).fetched = true →
        t2 - t1 < 30 * 60 * 1000 →
        getValuationMetricsCached (getValuationMetricsCached all t1 sym f1).cache t2 sym f2 =
          ⟨(getValuationMetricsCached all t1 sym f1).data,
            (getValuationMetricsCached all t1 sym f1).cache, false⟩) ∧
    (∀ (all : MetricsCache) (now : Int) (sym : String) (f : ValuationMetrics),
        (getValuationMetricsCached all now sym f).fetched = false ↔
          ∃ hit, objGet all sym = some hit ∧ now - hit.capturedAt < 30 * 60 * 1000) ∧
    (∀ (all : MetricsCache) (now : Int) (sym : String) (f : ValuationMetrics),
        (¬ ∃ hit, objGet all sym = some hit ∧ now - hit.capturedAt < 30 * 60 * 1000) →
        (getValuationMetricsCached all now sym f).data = f ∧
        (getValuationMetricsCached all now sym f).fetched = true ∧
        objGet (getValuationMetricsCached all now sym f).cache sym = some ⟨now, f⟩) := by
  have hstore : ∀ (all : MetricsCache) (t1 : Int) (sym : String) (f1 : ValuationMetrics),
      (getValuationMetricsCached all t1 sym f1).fetched = true →
      getValuationMetricsCached all t1 sym f1 =
        ⟨f1, metricsCachePut all t1 sym f1, true⟩ := by
    intro all t1 sym f1 hf
    unfold getValuationMetricsCached at hf ⊢
    cases hobj : objGet all sym with
    | none => simp [hobj]
    | some hit =>
      simp only [hobj] at hf ⊢
      by_cases hfresh : t1 - hit.capturedAt < 30 * 60 * 1000
      · rw [if_pos hfresh] at hf
        cases hf
      · rw [if_neg hfresh]
  refine ⟨?_, ?_, ?_⟩
  · intro all t1 t2 sym f1 f2 hf hlt
    rw [hstore all t1 sym f1 hf]
    unfold getValuationMetricsCached metricsCachePut
    dsimp only
    rw [objGet_objSet_self all sym ⟨t1, f1⟩]
    dsimp only
    rw [if_pos hlt]
  · intro all now sym f
    unfold getValuationMetricsCached
    cases hobj : objGet all sym with
    | none => simp
    | some hit =>
      dsimp only
      by_cases hfresh : now - hit.capturedAt < 30 * 60 * 1000
      · rw [if_pos hfresh]
        simpa using hfresh
      · rw [if_neg hfresh]
        simpa using hfresh
  · intro all now sym f hmiss
    unfold getValuationMetricsCached
    cases hobj : objGet all sym with
    | none =>
      dsimp only
      exact ⟨rfl, rfl, objGet_objSet_self all sym ⟨now, f⟩⟩
    | some hit =>
      have hfresh : ¬ now - hit.capturedAt < 30 * 60 * 1000 := by
        intro hc
        exact hmiss ⟨hit, hobj, hc⟩
      dsimp only
      rw [if_neg hfresh]
      exact ⟨rfl, rfl, objGet_objSet_self all sym ⟨now, f⟩⟩

/-- Witness for C7: an empty cache fetches and stores at time 0; a call
1000 ms later returns the stored metrics without fetching. -/
theorem getValuationMetricsCached_readthrough_witness :
    getValuationMetricsCached
        (getValuationMetricsCached [] 0 "AAPL" ⟨1, 2, 3, 4, 5, 6, 7, 8, 9, "USD"⟩).cache
        1000 "AAPL" ⟨0, 0, 0, 0, 0, 0, 0, 0, 0, "USD"⟩ =
      ⟨(getValuationMetricsCached [] 0 "AAPL" ⟨1, 2, 3, 4, 5, 6, 7, 8, 9, "USD"⟩).data,
        (getValuationMetricsCached [] 0 "AAPL" ⟨1, 2, 3, 4, 5, 6, 7, 8, 9, "USD"⟩).cache,
        false⟩ :=
  getValuationMetricsCached_readthrough.1 [] 0 1000 "AAPL"
    ⟨1, 2, 3, 4, 5, 6, 7, 8, 9, "USD"⟩ ⟨0, 0, 0, 0, 0, 0, 0, 0, 0, "USD"⟩ rfl (by decide)

unseal Rat.add Rat.mul Rat.inv Rat.sub Rat.ofScientific in
/-- C2 counterexample: a failed/empty price fetch at time 0 (the cached
snapshot being stale) writes the empty snapshot with a fresh timestamp;
a catalog load for the same market one minute later nevertheless calls
the Market Data Fetcher again — the line 128 guard requires a non-empty
mapping, so the claimed suppression of retries does not happen. -/
theorem price_cache_empty_snapshot_retries :
    (loadPricesStep ⟨-700000, [("2222:TADAWUL", 9)]⟩ 0 []).cacheAfter = ⟨0, []⟩ ∧
    (loadPricesStep ⟨0, []⟩ 60000 []).fetcherCalled = true := by
  constructor
  · decide
  · decide

unseal Rat.add Rat.mul Rat.inv Rat.sub Rat.ofScientific in
/-- C2 amended: a catalog load within 10 minutes of the cached snapshot
reuses it without calling the fetcher only if the snapshot is non-empty;
an empty snapshot (as written by a failed or empty fetch) never
suppresses the fetcher, whatever its age — the fetcher is called again
and the snapshot is overwritten. -/
theorem price_cache_reuse_amended :
    (∀ (cached : PriceCacheRecord) (now : Int) (f : List (String × Rat)),
        cached.prices ≠ [] → now - cached.capturedAt < 600000 →
        loadPricesStep cached now f = ⟨cached.prices, cached, false⟩) ∧
    (∀ (t now : Int) (f : List (String × Rat)),
        loadPricesStep ⟨t, []⟩ now f = ⟨f, ⟨now, f⟩, true⟩) := by
  constructor
  · intro cached now f hne hage
    unfold loadPricesStep usesCachedPrices
    rw [if_pos]
    rw [Bool.and_eq_true, decide_eq_true_iff, Bool.not_eq_true']
    exact ⟨(ageMin_lt_ten_iff _).mpr hage, by simpa using hne⟩
  · intro t now f
    unfold loadPricesStep usesCachedPrices
    rw [if_neg]
    simp

/-- Witness for C2's amended claim: a fresh non-empty snapshot is reused. -/
theorem price_cache_reuse_amended_witness :
    loadPricesStep ⟨0, [("AAPL", 2)]⟩ 60000 [] =
      ⟨[("AAPL", 2)], ⟨0, [("AAPL", 2)]⟩, false⟩ :=
  price_cache_reuse_amended.1 ⟨0, [("AAPL", 2)]⟩ 60000 [] (by decide) (by decide)

unseal Rat.add Rat.mul Rat.inv Rat.sub Rat.ofScientific in
/-- C3 counterexample: on `x {"a": {"b": 1}}` (no fence, direct parse of the
whole text fails) the substring between the first `{` and the last `}` is
valid JSON, so the claimed strategy would succeed — but `extractJSON`
returns nothing, because the fallback slices from the **last** `{`
(`raw.lastIndexOf('{')`, line 217), yielding the unparseable `{"b": 1}}`. -/
theorem extractJSON_first_brace_refuted :
    extractJSON "x \x7b\"a\": \x7b\"b\": 1\x7d\x7d" = none ∧
    extractJSONClaimed "x \x7b\"a\": \x7b\"b\": 1\x7d\x7d" =
      some (.obj [("a", .obj [("b", .num 1)])]) ∧
    jsonParse "\x7b\"a\": \x7b\"b\": 1\x7d\x7d" =
      some (.obj [("a", .obj [("b", .num 1)])]) :=
  ⟨rfl, rfl, rfl⟩

unseal Rat.add Rat.mul Rat.inv Rat.sub Rat.ofScientific in
/-- C3 amended: the parser first selects a working text — the contents of
the first fenced code block if one exists, otherwise the whole (non-empty)
response; it parses the working text directly; if that fails it parses
the substring of the working text between its last `{` and last `}`.
The scenario text still parses to fv = 27.10. -/
theorem extractJSON_amended :
    (∀ (text : String) (v : JSValue), text ≠ "" → findFence text = none →
        jsonParse text = some v → extractJSON text = some v) ∧
    (∀ (text content : String) (v : JSValue), findFence text = some content →
        jsonParse content = some v → extractJSON text = some v) ∧
    extractJSON "noise ```json\n\x7b\"fv\": 27.10, \"rationale\": \"ok\"\x7d\n``` trailing" =
      some (.obj [("fv", .num (271 / 10)), ("rationale", .str "ok")]) ∧
    extractJSON "junk \x7b\"fv\": 2\x7d" = some (.obj [("fv", .num 2)]) := by
  refine ⟨?_, ?_, rfl, rfl⟩
  · intro text v hne hf hp
    unfold extractJSON
    rw [if_neg hne, hf]
    dsimp only [Option.getD]
    rw [hp]
  · intro text content v hf hp
    have hne : text ≠ "" := by
      intro he
      rw [he] at hf
      exact Option.noConfusion ((rfl : findFence "" = none) ▸ hf)
    unfold extractJSON
    rw [if_neg hne, hf]
    dsimp only [Option.getD]
    rw [hp]

unseal Rat.add Rat.mul Rat.inv Rat.sub Rat.ofScientific in
/-- Witness for C3's amended claim: a bare JSON object with no fence parses
directly. -/
theorem extractJSON_amended_witness :
    extractJSON "\x7b\"a\": 1\x7d" = some (.obj [("a", .num 1)]) :=
  extractJSON_amended.1 "\x7b\"a\": 1\x7d" (.obj [("a", .num 1)]) (by decide) rfl rfl

unseal Rat.add Rat.mul Rat.inv Rat.sub Rat.ofScientific in
/-- C4 counterexample: two metrics that differ only in `fairEV` — by less
than the 2-decimal rounding resolution (1.001 vs 1.002) — produce the same
inputs signature, hence the same AI cache key; changing an input "by any
amount" does not always change the key. -/
theorem aiInputsSig_rounding_collision :
    aiInputsSig ⟨10, 1.001, 2, 3, 4, 5, 6, 7, 8, "USD"⟩ =
      aiInputsSig ⟨10, 1.002, 2, 3, 4, 5, 6, 7, 8, "USD"⟩ ∧
    AI_CACHE_KEY "AAPL" (aiInputsSig ⟨10, 1.001, 2, 3, 4, 5, 6, 7, 8, "USD"⟩) =
      AI_CACHE_KEY "AAPL" (aiInputsSig ⟨10, 1.002, 2, 3, 4, 5, 6, 7, 8, "USD"⟩) ∧
    (1.001 : Rat) ≠ 1.002 := by
  refine ⟨by decide, by decide, by decide⟩

/-- C4 amended: the AI cache key depends only on the five inputs `fairEV`,
`fairPE`, `fairPS`, `bookValue`, `price`, each rounded to 2 decimal places:
metrics agreeing on those five fields (margins and currency free) share the
key, and changing any one of the five by enough to change its rounded value
changes the key (forcing re-invocation once the 24-hour entry for the new
key is absent); changes below the rounding resolution keep the key. -/
theorem aiInputsSig_amended :
    (∀ m1 m2 : ValuationMetrics, m1.fairEV = m2.fairEV → m1.fairPE = m2.fairPE →
        m1.fairPS = m2.fairPS → m1.bookValue = m2.bookValue → m1.price = m2.price →
        aiInputsSig m1 = aiInputsSig m2) ∧
    (∀ m1 m2 : ValuationMetrics,
        (round2 m1.fairEV ≠ round2 m2.fairEV ∨ round2 m1.fairPE ≠ round2 m2.fairPE ∨
         round2 m1.fairPS ≠ round2 m2.fairPS ∨ round2 m1.bookValue ≠ round2 m2.bookValue ∨
         round2 m1.price ≠ round2 m2.price) →
        aiInputsSig m1 ≠ aiInputsSig m2) ∧
    (∀ (sym : String) (m1 m2 : ValuationMetrics), aiInputsSig m1 ≠ aiInputsSig m2 →
        AI_CACHE_KEY sym (aiInputsSig m1) ≠ AI_CACHE_KEY sym (aiInputsSig m2)) := by
  refine ⟨?_, ?_, ?_⟩
  · intro m1 m2 h1 h2 h3 h4 h5
    unfold aiInputsSig
    rw [h1, h2, h3, h4, h5]
  · intro m1 m2 hdiff heq
    unfold aiInputsSig at heq
    simp only [Prod.mk.injEq] at heq
    obtain ⟨e1, e2, e3, e4, e5⟩ := heq
    rcases hdiff with h | h | h | h | h
    · exact h e1
    · exact h e2
    · exact h e3
    · exact h e4
    · exact h e5
  · intro sym m1 m2 hne hkey
    unfold AI_CACHE_KEY at hkey
    simp only [Prod.mk.injEq] at hkey
    exact hne hkey.2.2

/-- Witness for C4's amended claim: metrics differing only in margins and
currency share the signature. -/
theorem aiInputsSig_amended_witness :
    aiInputsSig ⟨1, 2, 3, 4, 5, 6, 7, 8, 9, "USD"⟩ =
      aiInputsSig ⟨1, 2, 3, 4, 5, 6, 99, 98, 97, "SAR"⟩ :=
  aiInputsSig_amended.1 ⟨1, 2, 3, 4, 5, 6, 7, 8, 9, "USD"⟩
    ⟨1, 2, 3, 4, 5, 6, 99, 98, 97, "SAR"⟩ rfl rfl rfl rfl rfl

/-- C9: when the model response yields no parsed value, or a parsed value
whose `fv` field is not a number, `askAI` shows the generic failure, sets
no numeric fair value, and leaves the AI-estimate cache untouched; in
particular for the response `"not json at all"`. -/
theorem askAI_parse_failure :
    (∀ (cache : AICache) (key : String) (now : Int) (content : String),
        extractJSON content = none →
        askAIHandleResponse cache key now content = ⟨cache, none, true⟩) ∧
    (∀ (cache : AICache) (key : String) (now : Int) (content : String) (j : JSValue),
        extractJSON content = some j → (∀ q : Rat, jget j "fv" ≠ JSValue.num q) →
        askAIHandleResponse cache key now content = ⟨cache, none, true⟩) ∧
    (∀ (cache : AICache) (key : String) (now : Int),
        askAIHandleResponse cache key now "not json at all" = ⟨cache, none, true⟩) := by
  have h1 : ∀ (cache : AICache) (key : String) (now : Int) (content : String),
      extractJSON content = none →
      askAIHandleResponse cache key now content = ⟨cache, none, true⟩ := by
    intro cache key now content h
    unfold askAIHandleResponse
    rw [h]
  refine ⟨h1, ?_, fun cache key now => h1 cache key now _ rfl⟩
  intro cache key now content j h hfv
  unfold askAIHandleResponse
  rw [h]
  dsimp only
  by_cases ht : jsTruthy j
  · rw [if_pos ht]
    cases hj : jget j "fv" with
    | num q => exact absurd hj (hfv q)
    | null => rfl
    | undefined => rfl
    | str s => rfl
    | bool b => rfl
    | arr items => rfl
    | obj fields => rfl
  · rw [if_neg ht]

/-- Witness for C9 at the malformed response of the spec scenario. -/
theorem askAI_parse_failure_witness :
    askAIHandleResponse [] "ai_fv_cache_k" 0 "not json at all" =
      ⟨[], none, true⟩ :=
  askAI_parse_failure.1 [] "ai_fv_cache_k" 0 "not json at all" rfl
